import Mathlib

/-!
Verification of the fast_ICA utilities against their specification.

The development shallowly embeds the two Python source files:

* `src/utils/config_parser/config.py` — a YAML configuration manager built
  around a recursive dictionary merge (`ConfigManager._deep_merge`) plus a
  handful of lookup accessors (`get_matlab_path`, `get_implementation_config`,
  `get_amica_params`, `get_eeglab_path`, `get_project_structure`,
  `export_matlab_config`) and two loaders (`_load_default_config`,
  `_load_custom_config`).
* `src/utils/total_time.py` — `calculate_total_time`, a line scanner that sums
  duration tokens of the shape `(<number> s` and reports hours.

YAML/JSON values are modelled by the inductive type `Val`; Python dicts are
insertion-ordered association lists without duplicate keys, modelled as
`List (String × Val)`.  Python floats are modelled exactly, as rationals.
External effects (the YAML parser, the file system, logging) are abstracted:
a parse outcome becomes an `Option`, a raised exception becomes an
`Except.error`, and an emitted log message becomes a returned `Bool` flag.
-/

/-- A YAML/JSON value: a scalar (its text is kept abstract), a sequence, or a
mapping with string keys.  Mappings are insertion-ordered association lists,
mirroring Python dictionaries. -/
inductive Val where
  | scalar : String → Val
  | arr : List Val → Val
  | map : List (String × Val) → Val

/-- A Python dictionary with string keys and `Val` values. -/
abbrev Dict := List (String × Val)

/-- Dictionary lookup, `d[k]` / `k in d`: the value at the first matching key. -/
def lookupVal : Dict → String → Option Val
  | [], _ => none
  | (k', v) :: rest, k => if k' = k then some v else lookupVal rest k

/-- Dictionary update `d[k] = v`: replaces the value at an existing key in
place (Python dicts keep the original insertion position), otherwise appends
the new binding at the end. -/
def setKey : Dict → String → Val → Dict
  | [], k, v => [(k, v)]
  | (k', v') :: rest, k, v =>
    if k' = k then (k, v) :: rest else (k', v') :: setKey rest k v

/-- Membership test `k in d` on a Python dictionary. -/
def hasKey (d : Dict) (k : String) : Bool :=
  (lookupVal d k).isSome

mutual
/-- `ConfigManager._deep_merge` from `config.py`:

    for key, value in source.items():
        if key in dest and isinstance(dest[key], dict) and isinstance(value, dict):
            self._deep_merge(dest[key], value)
        else:
            dest[key] = value

The in-place mutation of `dest` is rendered as a fold that threads the updated
destination dictionary through the iteration over `source`. -/
def deepMerge (dest : Dict) (source : Dict) : Dict :=
  match source with
  | [] => dest
  | (k, v) :: rest => deepMerge (setKey dest k (mergeVal (lookupVal dest k) v)) rest
termination_by sizeOf source
decreasing_by
  all_goals simp
  all_goals omega

/-- The value written to `dest[key]` for one `source` entry: when the key is
present in `dest` and both sides are mappings the merge recurses, otherwise
the source value is taken as is. -/
def mergeVal (dv : Option Val) (v : Val) : Val :=
  match dv, v with
  | some (Val.map dm), Val.map sm => Val.map (deepMerge dm sm)
  | _, _ => v
termination_by sizeOf v
decreasing_by
  all_goals simp
  all_goals omega
end

/-- The merged value visible at one key, expressed through the two lookups:
absent in `source` means the destination value survives; present in `source`
means `mergeVal` of the two sides. -/
def mergeLook (dv sv : Option Val) : Option Val :=
  match sv with
  | none => dv
  | some v => some (mergeVal dv v)

/-- Python exception classes that the embedded code can raise. -/
inductive PyErr where
  | valueError : PyErr
  | keyError : String → PyErr
  | typeError : PyErr
deriving DecidableEq

/-- The whitespace characters stripped by Python str.strip(). -/
def isPyWhitespace (c : Char) : Bool :=
  c = ' ' || c = '\t' || c = '\n' || c = '\r' || c = '\x0b' || c = '\x0c'

/-- Python str.strip(): removes leading and trailing whitespace. -/
def stripChars (l : List Char) : List Char :=
  ((l.dropWhile isPyWhitespace).reverse.dropWhile isPyWhitespace).reverse

/-- Python str.index(c): the position of the first occurrence of the character,
or a ValueError (modelled as none) when the character does not occur. -/
def strIndex (l : List Char) (c : Char) : Option Nat :=
  if l.contains c then some (l.findIdx (· == c)) else none

/-- Python slicing s[a:b] for nonnegative bounds: the characters from
position a up to (excluding) position b, clamped to the string; empty when
b is at most a. -/
def pySlice (l : List Char) (a b : Nat) : List Char :=
  (l.take b).drop a

/-- The numeric value of a digit string, most significant digit first. -/
def digitsVal (l : List Char) : Nat :=
  l.foldl (fun acc c => 10 * acc + (c.toNat - 48)) 0

/-- The unsigned part of Python float parsing, restricted to the decimal
fragment the log files use: digits with an optional fractional part (at least
one digit overall) and an optional integer exponent.  The special spellings
inf, infinity, nan and digit-group underscores are not modelled; the inputs
in scope never contain them.  Values are exact rationals. -/
def parseUnsignedFloat (l : List Char) : Option Rat :=
  let ip := l.takeWhile Char.isDigit
  let r1 := l.dropWhile Char.isDigit
  let fp :=
    match r1 with
    | '.' :: t => t.takeWhile Char.isDigit
    | _ => []
  let r2 :=
    match r1 with
    | '.' :: t => t.dropWhile Char.isDigit
    | _ => r1
  if ip.isEmpty && fp.isEmpty then none
  else
    let mant : Rat := (digitsVal ip : Rat) + (digitsVal fp : Rat) / ((10 : Rat) ^ fp.length)
    match r2 with
    | [] => some mant
    | c :: t =>
      if c = 'e' || c = 'E' then
        let negE :=
          match t with
          | '-' :: _ => true
          | _ => false
        let t2 :=
          match t with
          | '+' :: u => u
          | '-' :: u => u
          | _ => t
        let ed := t2.takeWhile Char.isDigit
        let r3 := t2.dropWhile Char.isDigit
        if ed.isEmpty || !r3.isEmpty then none
        else if negE then some (mant / (10 : Rat) ^ digitsVal ed)
        else some (mant * (10 : Rat) ^ digitsVal ed)
      else none

/-- Python float(string): strips whitespace, handles an optional sign, and
parses the decimal body; none models a raised ValueError. -/
def parseFloat (l : List Char) : Option Rat :=
  match stripChars l with
  | '+' :: t => parseUnsignedFloat t
  | '-' :: t => (parseUnsignedFloat t).map (fun q => -q)
  | s => parseUnsignedFloat s

/-- The try-block body of calculate_total_time for one line:

    start_idx = line.index('(') + 1
    end_idx = line.index('s')
    time_in_seconds = float(line[start_idx:end_idx].strip())

A none from an index or float call is a raised ValueError. -/
def lineStepE (line : List Char) : Except PyErr Rat :=
  match strIndex line '(' with
  | none => Except.error PyErr.valueError
  | some i =>
    match strIndex line 's' with
    | none => Except.error PyErr.valueError
    | some j =>
      match parseFloat (stripChars (pySlice line (i + 1) j)) with
      | none => Except.error PyErr.valueError
      | some q => Except.ok q

/-- The seconds one line adds to the running total: lines failing the guard
contribute nothing, and a ValueError inside the try block is caught
(except ValueError: continue), so the line contributes nothing. -/
def lineContrib (line : List Char) : Rat :=
  if line.contains '(' && line.contains 's' then
    match lineStepE line with
    | Except.ok q => q
    | Except.error _ => 0
  else 0

/-- The loop of calculate_total_time in the exception monad: the guard is
checked outside the try block, a ValueError raised inside it is caught and
the loop continues, and any other exception propagates. -/
def sumSecondsE : List (List Char) → Rat → Except PyErr Rat
  | [], acc => Except.ok acc
  | line :: rest, acc =>
    if line.contains '(' && line.contains 's' then
      match lineStepE line with
      | Except.ok q => sumSecondsE rest (acc + q)
      | Except.error PyErr.valueError => sumSecondsE rest acc
      | Except.error e => Except.error e
    else sumSecondsE rest acc

/-- calculate_total_time in the exception monad: scan all lines, then divide
the accumulated seconds by 3600. -/
def calculate_total_time_E (lines : List (List Char)) : Except PyErr Rat :=
  match sumSecondsE lines 0 with
  | Except.ok t => Except.ok (t / 3600)
  | Except.error e => Except.error e

/-- The total seconds accumulated over the lines of the file. -/
def totalSeconds (lines : List (List Char)) : Rat :=
  (lines.map lineContrib).sum

/-- calculate_total_time from total_time.py, as the pure function it computes:
the accumulated seconds divided by 3600. -/
def calculate_total_time (lines : List (List Char)) : Rat :=
  totalSeconds lines / 3600

/-- The first occurrence of a character at or after a given position; used
only to state what claim C2 asserts about the extraction (the first s
FOLLOWING the parenthesis), which the code does not implement. -/
def strIndexFrom (l : List Char) (c : Char) (start : Nat) : Option Nat :=
  ((l.drop start).findIdx? (· == c)).map (· + start)

/-- The contribution of one line as claim C2 words it: the substring between
the first opening parenthesis and the first letter s FOLLOWING that
parenthesis is interpreted as a float and added.  This definition follows the
claim text, to be compared with lineContrib, which follows the code (the code
takes the first letter s anywhere in the line). -/
def lineContribClaimed (line : List Char) : Rat :=
  if line.contains '(' && line.contains 's' then
    match strIndex line '(' with
    | some i =>
      match strIndexFrom line 's' (i + 1) with
      | some j => (parseFloat (stripChars (pySlice line (i + 1) j))).getD 0
      | none => 0
    | none => 0
  else 0

/-- Python subscripting value[k]: a KeyError on a mapping without the key and
a TypeError on a non-mapping value.  Non-mapping containers (lists, strings)
are not subscripted with string keys anywhere in config.py, so they are
modelled by the TypeError branch as well. -/
def getItem (v : Val) (k : String) : Except PyErr Val :=
  match v with
  | Val.map m =>
    match lookupVal m k with
    | some x => Except.ok x
    | none => Except.error (PyErr.keyError k)
  | _ => Except.error PyErr.typeError

/-- Outcome of ConfigManager._load_default_config: either the parsed base
configuration is installed, or sys.exit(code) terminates the process. -/
inductive LoadResult where
  | ok : Dict → LoadResult
  | exit : Nat → LoadResult

/-- `ConfigManager._load_default_config`: the outcome of opening and parsing
the default YAML file is abstracted as an Option (none models any raised
exception: missing file, malformed document).  On failure the error is logged
and the process exits with status 1. -/
def load_default_config (parsed : Option Dict) : LoadResult :=
  match parsed with
  | some cfg => LoadResult.ok cfg
  | none => LoadResult.exit 1

/-- `ConfigManager._load_custom_config`: the outcome of opening and parsing
the custom YAML file is abstracted as an Option (none models any raised
exception, caught by the blanket except clause).  On success the custom
document is deep-merged into the current configuration; on failure the
configuration is left untouched and the error is logged (the returned Bool
records that a log message was emitted).  The merge runs only after a
successful parse, so a parse failure can never leave a partial merge. -/
def load_custom_config (cfg : Dict) (parsed : Option Dict) : Dict × Bool :=
  match parsed with
  | some custom => (deepMerge cfg custom, false)
  | none => (cfg, true)

/-- `ConfigManager.get_matlab_path`:

    return self.config["global"]["matlab"].get(self.env, self.config["global"]["matlab"]["local"])

Python evaluates the default argument of .get eagerly, so the "local" entry
is looked up unconditionally, before .get runs. -/
def get_matlab_path (cfg : Dict) (env : String) : Except PyErr Val :=
  match getItem (Val.map cfg) "global" with
  | Except.error e => Except.error e
  | Except.ok g =>
    match getItem g "matlab" with
    | Except.error e => Except.error e
    | Except.ok m =>
      match getItem m "local" with
      | Except.error e => Except.error e
      | Except.ok dflt =>
        match m with
        | Val.map mm => Except.ok ((lookupVal mm env).getD dflt)
        | _ => Except.error PyErr.typeError

/-- `ConfigManager.get_eeglab_path`: self.config["global"]["eeglab"]["path"]. -/
def get_eeglab_path (cfg : Dict) : Except PyErr Val :=
  match getItem (Val.map cfg) "global" with
  | Except.error e => Except.error e
  | Except.ok g =>
    match getItem g "eeglab" with
    | Except.error e => Except.error e
    | Except.ok e2 => getItem e2 "path"

/-- `ConfigManager.get_matlab_startup_options`:
self.config["global"]["eeglab"]["startup_options"]. -/
def get_matlab_startup_options (cfg : Dict) : Except PyErr Val :=
  match getItem (Val.map cfg) "global" with
  | Except.error e => Except.error e
  | Except.ok g =>
    match getItem g "eeglab" with
    | Except.error e => Except.error e
    | Except.ok e2 => getItem e2 "startup_options"

/-- `ConfigManager.get_amica_params`: self.config["global"]["amica"]. -/
def get_amica_params (cfg : Dict) : Except PyErr Val :=
  match getItem (Val.map cfg) "global" with
  | Except.error e => Except.error e
  | Except.ok g => getItem g "amica"

/-- `ConfigManager.get_project_structure`: self.config["project"]["structure"]. -/
def get_project_structure (cfg : Dict) : Except PyErr Val :=
  match getItem (Val.map cfg) "project" with
  | Except.error e => Except.error e
  | Except.ok p => getItem p "structure"

/-- `ConfigManager.get_implementation_config`: membership test on the
"implementations" section; a hit returns the sub-mapping, a miss logs a
warning (the Bool of the pair) and returns the empty dict.  The lookup of the
section itself is unguarded and propagates. -/
def get_implementation_config (cfg : Dict) (impl : String) : Except PyErr (Val × Bool) :=
  match getItem (Val.map cfg) "implementations" with
  | Except.error e => Except.error e
  | Except.ok impls =>
    match impls with
    | Val.map m =>
      match lookupVal m impl with
      | some v => Except.ok (v, false)
      | none => Except.ok (Val.map [], true)
    | _ => Except.error PyErr.typeError

/-- `ConfigManager.export_matlab_config`: builds the reduced mapping
(amica parameters, implementation profile, eeglab path), adds the project
structure only for the strengthen implementation, and serializes it to a
temporary file.  The embedding returns the assembled mapping; the file
system write and returned path are outside the model. -/
def export_matlab_config (cfg : Dict) (impl : String) : Except PyErr Dict :=
  match get_amica_params cfg with
  | Except.error e => Except.error e
  | Except.ok amica =>
    match get_implementation_config cfg impl with
    | Except.error e => Except.error e
    | Except.ok implPair =>
      match get_eeglab_path cfg with
      | Except.error e => Except.error e
      | Except.ok eeglab =>
        let base := [("amica", amica), ("implementation", implPair.1),
          ("eeglab_path", eeglab)]
        if impl = "strengthen" then
          match get_project_structure cfg with
          | Except.error e => Except.error e
          | Except.ok proj => Except.ok (setKey base "project" proj)
        else Except.ok base

/-- Pointwise lifting of a relation on values to optional values. -/
inductive OptEqv (r : Val → Val → Prop) : Option Val → Option Val → Prop where
  | none : OptEqv r none none
  | some : ∀ {a b : Val}, r a b → OptEqv r (some a) (some b)

/-- Extensional equivalence of values: scalars must coincide, sequences must
agree pointwise, and mappings must associate equivalent optional values to
every key — this is equality of Python dicts, which ignores insertion
order. -/
inductive VEquiv : Val → Val → Prop where
  | scalar : ∀ s : String, VEquiv (Val.scalar s) (Val.scalar s)
  | arr : ∀ {l l' : List Val}, l.length = l'.length →
      (∀ i (h : i < l.length) (h' : i < l'.length),
        VEquiv (l.get ⟨i, h⟩) (l'.get ⟨i, h'⟩)) →
      VEquiv (Val.arr l) (Val.arr l')
  | map : ∀ {m m' : Dict},
      (∀ k, OptEqv VEquiv (lookupVal m k) (lookupVal m' k)) →
      VEquiv (Val.map m) (Val.map m')

mutual
/-- Well-formedness of a value as produced by a YAML parser into Python
dictionaries: every mapping at every depth has duplicate-free keys. -/
def valWF : Val → Bool
  | Val.scalar _ => true
  | Val.arr l => listWF l
  | Val.map m => decide ((m.map Prod.fst).Nodup) && entriesWF m

/-- All values of a list are well-formed. -/
def listWF : List Val → Bool
  | [] => true
  | v :: r => valWF v && listWF r

/-- All values of an association list are well-formed. -/
def entriesWF : List (String × Val) → Bool
  | [] => true
  | (_, v) :: r => valWF v && entriesWF r
end

/-- Well-formedness of a dictionary: duplicate-free keys at every depth. -/
def dictWF (m : Dict) : Bool :=
  valWF (Val.map m)

/-- A dictionary differing from another only by permuting the entries of one
level: either the two top-level entry lists are permutations of each other,
or the two agree except below one key, where the nested mappings again differ
by a one-level permutation. -/
inductive PermAtOneLevel : Dict → Dict → Prop where
  | top : ∀ {s s' : Dict}, List.Perm s s' → PermAtOneLevel s s'
  | nested : ∀ (pre post : Dict) (k : String) {m m' : Dict},
      PermAtOneLevel m m' →
      PermAtOneLevel (pre ++ (k, Val.map m) :: post) (pre ++ (k, Val.map m') :: post)

theorem lookupVal_nil (k : String) : lookupVal [] k = none := rfl

theorem lookupVal_cons (k' k : String) (v : Val) (rest : Dict) :
    lookupVal ((k', v) :: rest) k = if k' = k then some v else lookupVal rest k := rfl

theorem lookupVal_eq_none_of_not_mem {d : Dict} {k : String}
    (h : k ∉ d.map Prod.fst) : lookupVal d k = none := by
  induction d with
  | nil => rfl
  | cons p rest ih =>
    obtain ⟨k', v⟩ := p
    simp only [List.map_cons, List.mem_cons] at h
    push_neg at h
    rw [lookupVal_cons, if_neg (fun hh => h.1 hh.symm), ih h.2]

theorem lookupVal_mem {d : Dict} {k : String} {v : Val}
    (h : lookupVal d k = some v) : (k, v) ∈ d := by
  induction d with
  | nil => simp [lookupVal] at h
  | cons p rest ih =>
    obtain ⟨k', v'⟩ := p
    rw [lookupVal_cons] at h
    by_cases hk : k' = k
    · rw [if_pos hk] at h
      cases h
      subst hk
      exact List.mem_cons_self _ _
    · rw [if_neg hk] at h
      exact List.mem_cons_of_mem _ (ih h)

theorem lookup_setKey_self (d : Dict) (k : String) (v : Val) :
    lookupVal (setKey d k v) k = some v := by
  induction d with
  | nil => simp [setKey, lookupVal]
  | cons p rest ih =>
    obtain ⟨k', v'⟩ := p
    by_cases hk : k' = k
    · simp [setKey, hk, lookupVal]
    · simp [setKey, hk, lookupVal, ih]

theorem lookup_setKey_ne (d : Dict) (k k' : String) (v : Val) (hne : k' ≠ k) :
    lookupVal (setKey d k v) k' = lookupVal d k' := by
  induction d with
  | nil =>
    rw [setKey, lookupVal_cons, if_neg (fun h => hne h.symm), lookupVal_nil]
  | cons p rest ih =>
    obtain ⟨k0, v0⟩ := p
    rw [setKey]
    by_cases hk : k0 = k
    · subst hk
      rw [if_pos rfl, lookupVal_cons, lookupVal_cons,
        if_neg (fun h => hne h.symm), if_neg (fun h => hne h.symm)]
    · rw [if_neg hk, lookupVal_cons, lookupVal_cons]
      by_cases hk' : k0 = k'
      · rw [if_pos hk', if_pos hk']
      · rw [if_neg hk', if_neg hk', ih]

theorem deepMerge_nil (d : Dict) : deepMerge d [] = d := by
  simp [deepMerge]

theorem deepMerge_cons (d : Dict) (k : String) (v : Val) (rest : Dict) :
    deepMerge d ((k, v) :: rest) =
      deepMerge (setKey d k (mergeVal (lookupVal d k) v)) rest := by
  rw [deepMerge]

/-- The single-key characterization of the merge: provided the source has no
duplicate keys (Python dictionaries never do), the value the merged dictionary
associates to any key is determined by the two values the inputs associate to
that key. -/
theorem lookup_deepMerge (source : Dict) : ∀ dest : Dict,
    (source.map Prod.fst).Nodup →
    ∀ k, lookupVal (deepMerge dest source) k =
      mergeLook (lookupVal dest k) (lookupVal source k) := by
  induction source with
  | nil =>
    intro d _ k
    rw [deepMerge_nil]
    rfl
  | cons p rest ih =>
    obtain ⟨k0, v⟩ := p
    intro d hnd k
    rw [List.map_cons, List.nodup_cons] at hnd
    obtain ⟨hk0, hrest⟩ := hnd
    rw [deepMerge_cons, ih _ hrest k]
    by_cases hk : k0 = k
    · subst hk
      rw [lookupVal_eq_none_of_not_mem hk0, lookup_setKey_self]
      rw [lookupVal_cons, if_pos rfl]
      rfl
    · rw [lookup_setKey_ne _ _ _ _ (fun h => hk h.symm)]
      rw [lookupVal_cons, if_neg hk]

theorem mergeVal_map_map (dm sm : Dict) :
    mergeVal (some (Val.map dm)) (Val.map sm) = Val.map (deepMerge dm sm) := by
  rw [mergeVal]

theorem mergeVal_of_src_not_map (dv : Option Val) (v : Val)
    (h : ∀ sm, v ≠ Val.map sm) : mergeVal dv v = v := by
  cases v with
  | map sm => exact absurd rfl (h sm)
  | scalar a =>
    rcases dv with _ | dvv
    · simp [mergeVal]
    · cases dvv <;> simp [mergeVal]
  | arr l =>
    rcases dv with _ | dvv
    · simp [mergeVal]
    · cases dvv <;> simp [mergeVal]

theorem mergeVal_of_dst_not_map (dv : Option Val) (v : Val)
    (h : ∀ dm, dv ≠ some (Val.map dm)) : mergeVal dv v = v := by
  rcases dv with _ | dvv
  · cases v <;> simp [mergeVal]
  · cases dvv with
    | map dm => exact absurd rfl (h dm)
    | scalar a => cases v <;> simp [mergeVal]
    | arr l => cases v <;> simp [mergeVal]

/-- C1: for every pair of mappings `dest` and `source` (keys of a Python dict
are unique), `deepMerge` satisfies the spec of `ConfigManager._deep_merge`:
every key present in either input is present in the result; at a key where
both values are mappings the merge recurses on the sub-mappings; at any other
key carried by `source` the source value replaces/sets the value in `dest`. -/
theorem deep_merge_spec (dest source : Dict) (hs : (source.map Prod.fst).Nodup) :
    (∀ k, hasKey (deepMerge dest source) k = (hasKey dest k || hasKey source k))
  ∧ (∀ k dm sm, lookupVal dest k = some (Val.map dm) →
      lookupVal source k = some (Val.map sm) →
      lookupVal (deepMerge dest source) k = some (Val.map (deepMerge dm sm)))
  ∧ (∀ k v, lookupVal source k = some v →
      ((∀ dm, lookupVal dest k ≠ some (Val.map dm)) ∨ (∀ sm, v ≠ Val.map sm)) →
      lookupVal (deepMerge dest source) k = some v) := by
  refine ⟨?_, ?_, ?_⟩
  · intro k
    rw [hasKey, hasKey, hasKey, lookup_deepMerge source dest hs k]
    cases hsv : lookupVal source k
    · simp [mergeLook]
    · simp [mergeLook]
  · intro k dm sm hd hsm
    rw [lookup_deepMerge source dest hs k, hd, hsm]
    simp [mergeLook, mergeVal_map_map]
  · intro k v hsv hdisj
    rw [lookup_deepMerge source dest hs k, hsv]
    rcases hdisj with hdst | hsrc
    · simp [mergeLook, mergeVal_of_dst_not_map _ _ hdst]
    · simp [mergeLook, mergeVal_of_src_not_map _ _ hsrc]

/-- Witness for C1, at the concrete example from the spec: merging the base
mapping with a scalar at key a with an override carrying a mapping there
yields the override mapping. -/
theorem deep_merge_spec_witness :
    lookupVal (deepMerge [("a", Val.scalar "1")] [("a", Val.map [("x", Val.scalar "2")])]) "a"
      = some (Val.map [("x", Val.scalar "2")]) :=
  (deep_merge_spec [("a", Val.scalar "1")] [("a", Val.map [("x", Val.scalar "2")])]
      (by simp)).2.2 "a" (Val.map [("x", Val.scalar "2")])
    (by simp [lookupVal])
    (Or.inl (fun dm hcontra => by simp [lookupVal] at hcontra))

/-- A slice whose end bound is at most its start bound is empty. -/
theorem pySlice_eq_nil (l : List Char) (a b : Nat) (h : b ≤ a) :
    pySlice l a b = [] := by
  rw [pySlice]
  exact List.drop_eq_nil_of_le (le_trans (List.length_take_le b l) h)

/-- The only exception the per-line try block can raise is a ValueError. -/
theorem lineStepE_error {line : List Char} {e : PyErr}
    (h : lineStepE line = Except.error e) : e = PyErr.valueError := by
  unfold lineStepE at h
  split at h
  · injection h with h2
    exact h2.symm
  · split at h
    · injection h with h2
      exact h2.symm
    · split at h
      · injection h with h2
        exact h2.symm
      · exact Except.noConfusion h

/-- The scan in the exception monad succeeds on every input and accumulates
exactly the per-line contributions. -/
theorem sumSecondsE_eq (lines : List (List Char)) : ∀ acc : Rat,
    sumSecondsE lines acc = Except.ok (acc + totalSeconds lines) := by
  induction lines with
  | nil =>
    intro acc
    simp [sumSecondsE, totalSeconds]
  | cons line rest ih =>
    intro acc
    by_cases hg : (line.contains '(' && line.contains 's') = true
    · cases hstep : lineStepE line with
      | ok q =>
        have hc : lineContrib line = q := by
          rw [lineContrib, if_pos hg, hstep]
        rw [sumSecondsE]
        simp only [hg, if_true, hstep]
        rw [ih (acc + q)]
        simp [totalSeconds, hc, add_assoc]
      | error e =>
        have he : e = PyErr.valueError := lineStepE_error hstep
        subst he
        have hc : lineContrib line = 0 := by
          rw [lineContrib, if_pos hg, hstep]
        rw [sumSecondsE]
        simp only [hg, if_true, hstep]
        rw [ih acc]
        simp [totalSeconds, hc]
    · have hc : lineContrib line = 0 := by
        rw [lineContrib, if_neg hg]
      rw [sumSecondsE]
      simp only [hg, if_false]
      rw [ih acc]
      simp [totalSeconds, hc]

/-- C10: on every sequence of input lines whatsoever, calculate_total_time
returns a numeric result and never raises: the run in the exception monad
always succeeds with the value of the pure function, and the guard requiring
both characters makes both index lookups succeed inside the try block. -/
theorem calculate_total_time_never_raises :
    (∀ lines, calculate_total_time_E lines = Except.ok (calculate_total_time lines))
  ∧ (∀ line, (line.contains '(' && line.contains 's') = true →
      (strIndex line '(').isSome = true ∧ (strIndex line 's').isSome = true) := by
  constructor
  · intro lines
    rw [calculate_total_time_E, sumSecondsE_eq lines 0, calculate_total_time]
    simp
  · intro line hg
    rw [Bool.and_eq_true] at hg
    constructor
    · rw [strIndex, if_pos hg.1]
      rfl
    · rw [strIndex, if_pos hg.2]
      rfl

/-- C9: on an empty file the result is exactly zero hours, and on any file the
result is the accumulated seconds divided by 3600. -/
theorem calculate_total_time_empty_file :
    calculate_total_time [] = 0
  ∧ ∀ lines, calculate_total_time lines = totalSeconds lines / 3600 :=
  ⟨by simp [calculate_total_time, totalSeconds], fun _ => rfl⟩

/-- Counterexample to C2: the line s (2 s) contains an opening parenthesis
and, after it, the number 2 followed by the letter s, so the claimed
extraction (between the first parenthesis and the first s following it)
produces 2.0 and the claim adds it; the code instead slices up to the first s
of the whole line, at index 0, obtains the empty string, fails the float
conversion and contributes nothing. -/
theorem sumDurations_extraction_counterexample :
    lineContrib ("s (2 s)".toList) = 0
  ∧ lineContribClaimed ("s (2 s)".toList) = 2
  ∧ lineContrib ("s (2 s)".toList) ≠ lineContribClaimed ("s (2 s)".toList)
  ∧ calculate_total_time [("s (2 s)".toList)] = 0 := by
  have h1 : lineContrib ("s (2 s)".toList) = 0 := rfl
  have h2 : lineContribClaimed ("s (2 s)".toList) = 2 := by
    have hp : parseFloat (stripChars (pySlice ("s (2 s)".toList) (2 + 1) 5)) =
        some ((digitsVal ("2".toList) : Rat)
          + (digitsVal ([] : List Char) : Rat) / (10 : Rat) ^ 0) := rfl
    have d1 : digitsVal ("2".toList) = 2 := by decide
    have d0 : digitsVal ([] : List Char) = 0 := rfl
    rw [lineContribClaimed, if_pos (by decide)]
    simp only [show strIndex ("s (2 s)".toList) '(' = some 2 from rfl,
      show strIndexFrom ("s (2 s)".toList) 's' (2 + 1) = some 5 from rfl, hp, d1, d0]
    norm_num
  refine ⟨h1, h2, ?_, ?_⟩
  · rw [h1, h2]
    norm_num
  · simp [calculate_total_time, totalSeconds, h1]
    rfl

/-- C2 amended: for every line containing both an opening parenthesis and the
letter s, with i the index of the first parenthesis and j the index of the
first s anywhere in the line (not necessarily after the parenthesis), the
line contributes the float value of the stripped slice line[i+1:j] when that
parses, and nothing when the parse fails. -/
theorem sumDurations_line_extraction (line : List Char) (rest : List (List Char))
    (i j : Nat) (hg : (line.contains '(' && line.contains 's') = true)
    (hi : strIndex line '(' = some i) (hj : strIndex line 's' = some j) :
    totalSeconds (line :: rest) =
      (parseFloat (stripChars (pySlice line (i + 1) j))).getD 0 + totalSeconds rest := by
  have hc : lineContrib line = (parseFloat (stripChars (pySlice line (i + 1) j))).getD 0 := by
    rw [lineContrib, if_pos hg]
    unfold lineStepE
    simp only [hi, hj]
    cases hp : parseFloat (stripChars (pySlice line (i + 1) j)) with
    | none => simp only [hp]; rfl
    | some q => simp only [hp]; rfl
  simp [totalSeconds, hc]

/-- Witness for the amended C2 on the line (175.76 s): the slice between the
parenthesis and the first s holds 175.76 seconds and is added. -/
theorem sumDurations_line_extraction_witness :
    totalSeconds [("(175.76 s)".toList)] = 4394 / 25 := by
  rw [sumDurations_line_extraction ("(175.76 s)".toList) [] 0 8
    (by decide) (by decide) (by decide)]
  have hp : parseFloat (stripChars (pySlice ("(175.76 s)".toList) (0 + 1) 8)) =
      some ((digitsVal ("175".toList) : Rat)
        + (digitsVal ("76".toList) : Rat) / (10 : Rat) ^ 2) := rfl
  have d1 : digitsVal ("175".toList) = 175 := by decide
  have d2 : digitsVal ("76".toList) = 76 := by decide
  rw [hp, d1, d2]
  simp [totalSeconds]
  norm_num

/-- C5: a line in which the parenthesis appears after the first s (so the
computed end index precedes the start index and the slice is empty), and a
line with a malformed number such as (abc s), both fail in the float
conversion step — the shared ValueError path — contribute zero, raise
nothing, and let the scan continue with the remaining lines. -/
theorem sumDurations_malformed_lines_skipped :
    (∀ line i j, strIndex line '(' = some i → strIndex line 's' = some j → j < i →
      lineStepE line = Except.error PyErr.valueError ∧ lineContrib line = 0)
  ∧ (lineStepE ("(abc s)".toList) = Except.error PyErr.valueError
      ∧ lineContrib ("(abc s)".toList) = 0)
  ∧ (∀ line rest acc, lineStepE line = Except.error PyErr.valueError →
      sumSecondsE (line :: rest) acc = sumSecondsE rest acc) := by
  refine ⟨?_, ⟨rfl, rfl⟩, ?_⟩
  · intro line i j hi hj hji
    have hsl : pySlice line (i + 1) j = [] := pySlice_eq_nil _ _ _ (by omega)
    have hstep : lineStepE line = Except.error PyErr.valueError := by
      unfold lineStepE
      simp only [hi, hj, hsl]
      rfl
    refine ⟨hstep, ?_⟩
    rw [lineContrib]
    split
    · rw [hstep]
    · rfl
  · intro line rest acc hstep
    rw [sumSecondsE]
    split
    · rw [hstep]
    · rfl

/-- Witness for C5: the line 2 s ( has its parenthesis after its s, the line
(abc s) has a malformed number; both contribute zero. -/
theorem sumDurations_malformed_lines_skipped_witness :
    lineContrib ("2 s (".toList) = 0 ∧ lineContrib ("(abc s)".toList) = 0 :=
  ⟨(sumDurations_malformed_lines_skipped.1 ("2 s (".toList) 4 2
      (by decide) (by decide) (by decide)).2,
   sumDurations_malformed_lines_skipped.2.1.2⟩

/-- Witness for C10 on a one-line file: the monadic run succeeds and the
guard makes the index lookup succeed. -/
theorem calculate_total_time_never_raises_witness :
    calculate_total_time_E [("(3600 s".toList)]
      = Except.ok (calculate_total_time [("(3600 s".toList)])
  ∧ (strIndex ("(3600 s".toList) '(').isSome = true :=
  ⟨calculate_total_time_never_raises.1 _,
   (calculate_total_time_never_raises.2 ("(3600 s".toList) (by decide)).1⟩

/-- Witness for C9 at a concrete file: the result is the accumulated seconds
divided by 3600. -/
theorem calculate_total_time_empty_file_witness :
    calculate_total_time [("(1 s".toList)] = totalSeconds [("(1 s".toList)] / 3600 :=
  calculate_total_time_empty_file.2 _

/-- C3: a missing or unparsable base document terminates the process with the
non-zero status 1; a valid base configuration combined with an unparsable
override document is returned unchanged — the merge never ran, so no partial
merge is possible — with the error logged (true flag) and no exception
escaping (the function is total). -/
theorem config_load_error_policy :
    (load_default_config none = LoadResult.exit 1 ∧ (1 : Nat) ≠ 0)
  ∧ (∀ cfg : Dict, load_custom_config cfg none = (cfg, true)) :=
  ⟨⟨rfl, by decide⟩, fun _ => rfl⟩

/-- Witness for C3: a concrete base configuration survives a failed override
parse unchanged, with the error logged. -/
theorem config_load_error_policy_witness :
    load_custom_config [("a", Val.scalar "1")] none = ([("a", Val.scalar "1")], true) :=
  config_load_error_policy.2 [("a", Val.scalar "1")]

/-- Counterexample to C4: in a configuration whose global.matlab mapping
holds a "server" entry but no "local" entry, the requested key is present,
yet the accessor raises KeyError("local") instead of returning the entry:
Python evaluates the fallback expression
self.config["global"]["matlab"]["local"] eagerly as the default argument
of .get, before the environment lookup happens. -/
theorem get_matlab_path_counterexample :
    get_matlab_path
        [("global", Val.map [("matlab", Val.map [("server", Val.scalar "/x")])])] "server"
      = Except.error (PyErr.keyError "local")
  ∧ lookupVal [("server", Val.scalar "/x")] "server" = some (Val.scalar "/x")
  ∧ Except.error (PyErr.keyError "local") ≠ (Except.ok (Val.scalar "/x") : Except PyErr Val) :=
  ⟨rfl, rfl, fun h => Except.noConfusion h⟩

/-- C4 amended: provided the designated default entry "local" exists in the
environment-keyed mapping (it is evaluated unconditionally as the .get
default, so without it the accessor fails even for a present key), the
accessor returns the entry keyed by the requested environment name when
present and otherwise the "local" entry; in particular requesting a present
key returns that entry and requesting an absent key returns the fallback. -/
theorem get_matlab_path_fallback (cfg g mm : Dict) (d : Val) (env : String)
    (h1 : lookupVal cfg "global" = some (Val.map g))
    (h2 : lookupVal g "matlab" = some (Val.map mm))
    (h3 : lookupVal mm "local" = some d) :
    get_matlab_path cfg env = Except.ok ((lookupVal mm env).getD d)
  ∧ (∀ v, lookupVal mm env = some v → get_matlab_path cfg env = Except.ok v)
  ∧ (lookupVal mm env = none → get_matlab_path cfg env = Except.ok d) := by
  have hmain : get_matlab_path cfg env = Except.ok ((lookupVal mm env).getD d) := by
    simp only [get_matlab_path, getItem, h1, h2, h3]
  refine ⟨hmain, ?_, ?_⟩
  · intro v hv
    rw [hmain, hv]
    rfl
  · intro hv
    rw [hmain, hv]
    rfl

/-- Witness for the amended C4: with both a "local" and a "server" entry
present, requesting the absent "unknown" environment falls back to the
"local" entry, and requesting the present "server" environment returns the
"server" entry. -/
theorem get_matlab_path_fallback_witness :
    get_matlab_path
        [("global", Val.map [("matlab", Val.map
          [("local", Val.scalar "/usr/local/MATLAB"), ("server", Val.scalar "/opt/matlab")])])]
        "unknown" = Except.ok (Val.scalar "/usr/local/MATLAB")
  ∧ get_matlab_path
        [("global", Val.map [("matlab", Val.map
          [("local", Val.scalar "/usr/local/MATLAB"), ("server", Val.scalar "/opt/matlab")])])]
        "server" = Except.ok (Val.scalar "/opt/matlab") :=
  ⟨(get_matlab_path_fallback
      [("global", Val.map [("matlab", Val.map
        [("local", Val.scalar "/usr/local/MATLAB"), ("server", Val.scalar "/opt/matlab")])])]
      [("matlab", Val.map
        [("local", Val.scalar "/usr/local/MATLAB"), ("server", Val.scalar "/opt/matlab")])]
      [("local", Val.scalar "/usr/local/MATLAB"), ("server", Val.scalar "/opt/matlab")]
      (Val.scalar "/usr/local/MATLAB") "unknown" rfl rfl rfl).2.2 rfl,
   (get_matlab_path_fallback
      [("global", Val.map [("matlab", Val.map
        [("local", Val.scalar "/usr/local/MATLAB"), ("server", Val.scalar "/opt/matlab")])])]
      [("matlab", Val.map
        [("local", Val.scalar "/usr/local/MATLAB"), ("server", Val.scalar "/opt/matlab")])]
      [("local", Val.scalar "/usr/local/MATLAB"), ("server", Val.scalar "/opt/matlab")]
      (Val.scalar "/usr/local/MATLAB") "server" rfl rfl rfl).2.1
      (Val.scalar "/opt/matlab") rfl⟩

/-- C6: with an "implementations" mapping present, a recognized profile name
returns its sub-mapping without a warning, an unrecognized name returns the
empty mapping with a warning instead of a lookup failure, while the other
accessors (here get_amica_params) propagate their lookup failures. -/
theorem get_implementation_config_spec (cfg impls : Dict) (impl : String)
    (h : lookupVal cfg "implementations" = some (Val.map impls)) :
    (∀ v, lookupVal impls impl = some v →
      get_implementation_config cfg impl = Except.ok (v, false))
  ∧ (lookupVal impls impl = none →
      get_implementation_config cfg impl = Except.ok (Val.map [], true))
  ∧ (∀ cfg2 : Dict, lookupVal cfg2 "global" = none →
      get_amica_params cfg2 = Except.error (PyErr.keyError "global")) := by
  refine ⟨?_, ?_, ?_⟩
  · intro v hv
    simp only [get_implementation_config, getItem, h, hv]
  · intro hv
    simp only [get_implementation_config, getItem, h, hv]
  · intro cfg2 h2
    simp only [get_amica_params, getItem, h2]

/-- Witness for C6: a recognized profile is returned as is, an unrecognized
one yields the empty mapping plus a warning. -/
theorem get_implementation_config_spec_witness :
    get_implementation_config
        [("implementations", Val.map [("parallel", Val.map [("x", Val.scalar "1")])])]
        "parallel" = Except.ok (Val.map [("x", Val.scalar "1")], false)
  ∧ get_implementation_config
        [("implementations", Val.map [("parallel", Val.map [("x", Val.scalar "1")])])]
        "unknown" = Except.ok (Val.map [], true) :=
  ⟨(get_implementation_config_spec
      [("implementations", Val.map [("parallel", Val.map [("x", Val.scalar "1")])])]
      [("parallel", Val.map [("x", Val.scalar "1")])] "parallel" rfl).1
      (Val.map [("x", Val.scalar "1")]) rfl,
   (get_implementation_config_spec
      [("implementations", Val.map [("parallel", Val.map [("x", Val.scalar "1")])])]
      [("parallel", Val.map [("x", Val.scalar "1")])] "unknown" rfl).2.1 rfl⟩

/-- C7: under successful lookups, the exported mapping holds exactly the
amica parameters, the selected implementation profile and the eeglab path,
plus the project structure exactly when the profile name is the sentinel
"strengthen". -/
theorem export_matlab_config_spec (cfg : Dict) (impl : String) (a ic e : Val) (w : Bool)
    (ha : get_amica_params cfg = Except.ok a)
    (hi : get_implementation_config cfg impl = Except.ok (ic, w))
    (he : get_eeglab_path cfg = Except.ok e) :
    (impl ≠ "strengthen" → export_matlab_config cfg impl =
      Except.ok [("amica", a), ("implementation", ic), ("eeglab_path", e)])
  ∧ (∀ p, impl = "strengthen" → get_project_structure cfg = Except.ok p →
      export_matlab_config cfg impl =
        Except.ok [("amica", a), ("implementation", ic), ("eeglab_path", e), ("project", p)])
  ∧ (∀ r, export_matlab_config cfg impl = Except.ok r →
      ((lookupVal r "project").isSome = true ↔ impl = "strengthen")) := by
  have e1 : ("amica" : String) ≠ "project" := by decide
  have e2 : ("implementation" : String) ≠ "project" := by decide
  have e3 : ("eeglab_path" : String) ≠ "project" := by decide
  have hset : ∀ p : Val,
      setKey [("amica", a), ("implementation", ic), ("eeglab_path", e)] "project" p
        = [("amica", a), ("implementation", ic), ("eeglab_path", e), ("project", p)] := by
    intro p
    rw [setKey, if_neg e1, setKey, if_neg e2, setKey, if_neg e3, setKey]
  have hbase : ∀ p : Val, lookupVal (setKey
      [("amica", a), ("implementation", ic), ("eeglab_path", e)] "project" p) "project"
        = some p := fun p => lookup_setKey_self _ _ _
  refine ⟨?_, ?_, ?_⟩
  · intro hne
    simp only [export_matlab_config, ha, hi, he]
    rw [if_neg hne]
  · intro p heq hp
    simp only [export_matlab_config, ha, hi, he]
    rw [if_pos heq]
    simp only [hp, hset p]
  · intro r hr
    simp only [export_matlab_config, ha, hi, he] at hr
    by_cases himpl : impl = "strengthen"
    · rw [if_pos himpl] at hr
      cases hproj : get_project_structure cfg with
      | error perr =>
        rw [hproj] at hr
        exact Except.noConfusion hr
      | ok p =>
        rw [hproj] at hr
        injection hr with hr2
        rw [← hr2, hbase p]
        simp [himpl]
    · rw [if_neg himpl] at hr
      injection hr with hr2
      rw [← hr2]
      rw [lookupVal_cons, if_neg e1, lookupVal_cons, if_neg e2,
        lookupVal_cons, if_neg e3, lookupVal_nil]
      simp [himpl]

/-- Witness for C7 at a concrete configuration, exporting the strengthen
profile: the reduced mapping carries amica, implementation, eeglab_path and,
because the profile is strengthen, the project structure. -/
theorem export_matlab_config_spec_witness :
    export_matlab_config
        [("global", Val.map
            [("matlab", Val.map [("local", Val.scalar "/m")]),
             ("amica", Val.map [("num_models", Val.scalar "1")]),
             ("eeglab", Val.map [("path", Val.scalar "/opt/eeglab")])]),
         ("implementations", Val.map [("strengthen", Val.map [("y", Val.scalar "2")])]),
         ("project", Val.map [("structure", Val.map [("code_dir", Val.scalar "src")])])]
        "strengthen"
      = Except.ok
          [("amica", Val.map [("num_models", Val.scalar "1")]),
           ("implementation", Val.map [("y", Val.scalar "2")]),
           ("eeglab_path", Val.scalar "/opt/eeglab"),
           ("project", Val.map [("code_dir", Val.scalar "src")])] :=
  (export_matlab_config_spec
      [("global", Val.map
          [("matlab", Val.map [("local", Val.scalar "/m")]),
           ("amica", Val.map [("num_models", Val.scalar "1")]),
           ("eeglab", Val.map [("path", Val.scalar "/opt/eeglab")])]),
       ("implementations", Val.map [("strengthen", Val.map [("y", Val.scalar "2")])]),
       ("project", Val.map [("structure", Val.map [("code_dir", Val.scalar "src")])])]
      "strengthen"
      (Val.map [("num_models", Val.scalar "1")])
      (Val.map [("y", Val.scalar "2")])
      (Val.scalar "/opt/eeglab") false rfl rfl rfl).2.1
    (Val.map [("code_dir", Val.scalar "src")]) rfl rfl

theorem sizeOf_lookupVal {m : Dict} {k : String} {v : Val}
    (h : lookupVal m k = some v) : sizeOf v < sizeOf m := by
  have hmem := lookupVal_mem h
  have h1 : sizeOf (k, v) < sizeOf m := List.sizeOf_lt_of_mem hmem
  have h2 : sizeOf v < sizeOf (k, v) := by
    simp
  omega

theorem nodup_of_dictWF {m : Dict} (h : dictWF m = true) :
    (m.map Prod.fst).Nodup := by
  rw [dictWF, valWF, Bool.and_eq_true] at h
  exact of_decide_eq_true h.1

theorem entriesWF_of_dictWF {m : Dict} (h : dictWF m = true) :
    entriesWF m = true := by
  rw [dictWF, valWF, Bool.and_eq_true] at h
  exact h.2

theorem valWF_of_entriesWF_mem : ∀ {m : Dict} {k : String} {v : Val},
    entriesWF m = true → (k, v) ∈ m → valWF v = true := by
  intro m
  induction m with
  | nil =>
    intro k v _ hmem
    simp at hmem
  | cons p rest ih =>
    intro k v hwf hmem
    obtain ⟨k0, v0⟩ := p
    rw [entriesWF, Bool.and_eq_true] at hwf
    rcases List.mem_cons.mp hmem with heq | hmem2
    · cases heq
      exact hwf.1
    · exact ih hwf.2 hmem2

theorem valWF_of_lookup {m : Dict} {k : String} {v : Val}
    (hwf : dictWF m = true) (h : lookupVal m k = some v) : valWF v = true :=
  valWF_of_entriesWF_mem (entriesWF_of_dictWF hwf) (lookupVal_mem h)

theorem dictWF_of_lookup_map {m : Dict} {k : String} {sm : Dict}
    (hwf : dictWF m = true) (h : lookupVal m k = some (Val.map sm)) :
    dictWF sm = true :=
  valWF_of_lookup hwf h

theorem sizeOf_get_lt (l : List Val) (i : Nat) (h : i < l.length) :
    sizeOf (l.get ⟨i, h⟩) < sizeOf (Val.arr l) := by
  have h2 : sizeOf (l.get ⟨i, h⟩) < sizeOf l :=
    List.sizeOf_lt_of_mem (List.get_mem l i h)
  have h3 : sizeOf (Val.arr l) = 1 + sizeOf l := by
    simp
  omega

/-- Extensional equivalence of values is reflexive. -/
theorem vequiv_refl : ∀ v : Val, VEquiv v v
  | Val.scalar a => VEquiv.scalar a
  | Val.arr l => VEquiv.arr rfl (fun i h _ => vequiv_refl (l.get ⟨i, h⟩))
  | Val.map m => VEquiv.map (fun k =>
      match hlk : lookupVal m k with
      | none => OptEqv.none
      | some v => OptEqv.some (vequiv_refl v))
termination_by v => sizeOf v
decreasing_by
  · exact sizeOf_get_lt l i h
  · have h1 := sizeOf_lookupVal hlk
    have h2 : sizeOf (Val.map m) = 1 + sizeOf m := by
      simp
    omega

theorem optEqv_refl (o : Option Val) : OptEqv VEquiv o o := by
  cases o with
  | none => exact OptEqv.none
  | some v => exact OptEqv.some (vequiv_refl v)

/-- Lookup into a duplicate-free association list is invariant under
permutation of the entries. -/
theorem lookup_perm_eq {s s' : Dict} (h : List.Perm s s') :
    (s.map Prod.fst).Nodup → ∀ k, lookupVal s k = lookupVal s' k := by
  induction h with
  | nil =>
    intro _ k
    rfl
  | cons p hperm ih =>
    intro hnd k
    obtain ⟨k0, v0⟩ := p
    rw [List.map_cons, List.nodup_cons] at hnd
    rw [lookupVal_cons, lookupVal_cons]
    by_cases hk : k0 = k
    · rw [if_pos hk, if_pos hk]
    · rw [if_neg hk, if_neg hk, ih hnd.2 k]
  | swap x y t =>
    intro hnd k
    obtain ⟨k1, v1⟩ := x
    obtain ⟨k2, v2⟩ := y
    rw [List.map_cons, List.map_cons, List.nodup_cons] at hnd
    have hne : k2 ≠ k1 := fun heq => hnd.1 (by rw [heq]; exact List.mem_cons_self _ _)
    by_cases h1 : k1 = k <;> by_cases h2 : k2 = k
    · exact absurd (h2.trans h1.symm) hne
    · simp [lookupVal_cons, h1, h2]
    · simp [lookupVal_cons, h1, h2]
    · simp [lookupVal_cons, h1, h2]
  | trans hab hbc ih1 ih2 =>
    intro hnd k
    have hnd2 := ((hab.map Prod.fst).nodup_iff).mp hnd
    exact (ih1 hnd k).trans (ih2 hnd2 k)

theorem lookupVal_append (a b : Dict) (k : String) :
    lookupVal (a ++ b) k =
      match lookupVal a k with
      | some v => some v
      | none => lookupVal b k := by
  induction a with
  | nil => rfl
  | cons p rest ih =>
    obtain ⟨k0, v0⟩ := p
    rw [List.cons_append, lookupVal_cons, lookupVal_cons]
    by_cases hk : k0 = k <;> simp [hk, ih]

/-- Merging equivalent sources into the same destination yields equivalent
results at every key: the key congruence behind order-independence. -/
theorem deepMerge_lookup_congr (s s' d : Dict)
    (hwf : dictWF s = true) (hwf' : dictWF s' = true)
    (heq : ∀ k0, OptEqv VEquiv (lookupVal s k0) (lookupVal s' k0)) (k : String) :
    OptEqv VEquiv (lookupVal (deepMerge d s) k) (lookupVal (deepMerge d s') k) := by
  rw [lookup_deepMerge s d (nodup_of_dictWF hwf) k,
    lookup_deepMerge s' d (nodup_of_dictWF hwf') k]
  have hk := heq k
  cases hsk : lookupVal s k with
  | none =>
    cases hs'k : lookupVal s' k with
    | none =>
      simp only [mergeLook]
      exact optEqv_refl _
    | some v' =>
      rw [hsk, hs'k] at hk
      cases hk
  | some v =>
    cases hs'k : lookupVal s' k with
    | none =>
      rw [hsk, hs'k] at hk
      cases hk
    | some v' =>
      rw [hsk, hs'k] at hk
      simp only [mergeLook]
      cases hk with
      | some hvv =>
        refine OptEqv.some ?_
        cases v with
        | scalar a =>
          cases hvv
          rw [mergeVal_of_src_not_map _ _ (fun sm h => Val.noConfusion h)]
          exact vequiv_refl _
        | arr l =>
          cases hvv with
          | arr hlen hpt =>
            rw [mergeVal_of_src_not_map _ _ (fun sm h => Val.noConfusion h),
              mergeVal_of_src_not_map _ _ (fun sm h => Val.noConfusion h)]
            exact VEquiv.arr hlen hpt
        | map sm =>
          cases hvv with
          | map hmm =>
            rename_i sm'
            cases hdk : lookupVal d k with
            | none =>
              rw [mergeVal_of_dst_not_map _ _ (fun dm h => Option.noConfusion h),
                mergeVal_of_dst_not_map _ _ (fun dm h => Option.noConfusion h)]
              exact VEquiv.map hmm
            | some dvv =>
              cases dvv with
              | scalar a2 =>
                rw [mergeVal_of_dst_not_map _ _
                    (fun dm h => Val.noConfusion (Option.some.inj h)),
                  mergeVal_of_dst_not_map _ _
                    (fun dm h => Val.noConfusion (Option.some.inj h))]
                exact VEquiv.map hmm
              | arr l2 =>
                rw [mergeVal_of_dst_not_map _ _
                    (fun dm h => Val.noConfusion (Option.some.inj h)),
                  mergeVal_of_dst_not_map _ _
                    (fun dm h => Val.noConfusion (Option.some.inj h))]
                exact VEquiv.map hmm
              | map dm =>
                rw [mergeVal_map_map, mergeVal_map_map]
                exact VEquiv.map (fun k2 =>
                  deepMerge_lookup_congr sm sm' dm
                    (dictWF_of_lookup_map hwf hsk)
                    (dictWF_of_lookup_map hwf' hs'k) hmm k2)
termination_by sizeOf s
decreasing_by
  have h1 := sizeOf_lookupVal hsk
  have h2 : sizeOf (Val.map sm) = 1 + sizeOf sm := by
    simp
  omega

/-- Permuting one level of a well-formed dictionary leaves its lookups
equivalent at every key. -/
theorem permAtOneLevel_lookup {s s' : Dict} (h : PermAtOneLevel s s') :
    dictWF s = true → ∀ k, OptEqv VEquiv (lookupVal s k) (lookupVal s' k) := by
  induction h with
  | top hp =>
    intro hwf k
    rw [lookup_perm_eq hp (nodup_of_dictWF hwf) k]
    exact optEqv_refl _
  | nested pre post k0 hm ih =>
    intro hwf k
    rename_i m m'
    have hmem : (k0, Val.map m) ∈ pre ++ (k0, Val.map m) :: post := by
      simp
    have hwfm : dictWF m = true :=
      valWF_of_entriesWF_mem (entriesWF_of_dictWF hwf) hmem
    rw [lookupVal_append, lookupVal_append]
    cases hpre : lookupVal pre k with
    | some v =>
      simp only
      exact optEqv_refl _
    | none =>
      simp only
      rw [lookupVal_cons, lookupVal_cons]
      by_cases hk : k0 = k
      · rw [if_pos hk, if_pos hk]
        exact OptEqv.some (VEquiv.map (ih hwfm))
      · rw [if_neg hk, if_neg hk]
        exact optEqv_refl _

/-- C8: deepMerge is order-independent across sibling keys: permuting the
entries at any one level of a well-formed source leaves the merged result the
same mapping — equivalent, at every key and every depth, ignoring only
insertion order. -/
theorem deep_merge_order_independent (dest s s' : Dict) (h : PermAtOneLevel s s')
    (hwf : dictWF s = true) (hwf' : dictWF s' = true) :
    VEquiv (Val.map (deepMerge dest s)) (Val.map (deepMerge dest s')) :=
  VEquiv.map (fun k =>
    deepMerge_lookup_congr s s' dest hwf hwf' (permAtOneLevel_lookup h hwf) k)

/-- Witness for C8: permuting the two entries of the nested mapping under key
a in the source leaves the merge with a destination equivalent. -/
theorem deep_merge_order_independent_witness :
    VEquiv
      (Val.map (deepMerge [("a", Val.map [("x", Val.scalar "0")])]
        [("a", Val.map [("x", Val.scalar "1"), ("y", Val.scalar "2")]),
         ("b", Val.scalar "3")]))
      (Val.map (deepMerge [("a", Val.map [("x", Val.scalar "0")])]
        [("a", Val.map [("y", Val.scalar "2"), ("x", Val.scalar "1")]),
         ("b", Val.scalar "3")])) :=
  deep_merge_order_independent
    [("a", Val.map [("x", Val.scalar "0")])]
    [("a", Val.map [("x", Val.scalar "1"), ("y", Val.scalar "2")]),
     ("b", Val.scalar "3")]
    [("a", Val.map [("y", Val.scalar "2"), ("x", Val.scalar "1")]),
     ("b", Val.scalar "3")]
    (PermAtOneLevel.nested [] [("b", Val.scalar "3")] "a"
      (PermAtOneLevel.top
        (List.Perm.swap ("y", Val.scalar "2") ("x", Val.scalar "1") [])))
    (by decide) (by decide)
